import Mathlib

/-!
Shallow embedding of the `potter-potter` Anchor program
(src/programs/potter-potter/src/lib.rs and src/programs/potter-potter/src/errors.rs).

Pubkeys are modelled as `Nat`; `u64` arithmetic is `Nat` with explicit
`< 2^64` checks mirroring Rust's `checked_add` / `checked_sub` /
`checked_mul`.  Fallible instructions return `Except ErrorCode _` on the
program's own state (the CPI calls to the external token/metadata programs
are collaborators that either succeed or abort the whole transaction, so
they do not appear in the state transition).
-/

namespace PotterPotter

abbrev Pubkey := Nat

/-- `u64` modulus. -/
def U64 : Nat := 2 ^ 64

/-- Rust `u64::checked_add`. -/
def checkedAdd (a b : Nat) : Option Nat :=
  if a + b < U64 then some (a + b) else none

/-- Rust `u64::checked_sub`. -/
def checkedSub (a b : Nat) : Option Nat :=
  if b ≤ a then some (a - b) else none

/-- Rust `u64::checked_mul`. -/
def checkedMul (a b : Nat) : Option Nat :=
  if a * b < U64 then some (a * b) else none

/-- `10u64.pow(d)` (wrapping on overflow, as in release builds; every
token this program creates has `decimals = 9`, where no wrap occurs). -/
def pow10u64 (d : Nat) : Nat := (10 ^ d) % U64

/-- Error codes from errors.rs, together with the two variants
(`UriTooLong`, `IsNotCurrentlyTransferring`) that lib.rs raises. -/
inductive ErrorCode where
  | TokenPaused
  | InvalidAmount
  | Unauthorized
  | MaxSupplyExceeded
  | SymbolTooLong
  | NameTooLong
  | UriTooLong
  | AddressNotWhitelisted
  | MintingPaused
  | InvalidMetadataAccount
  | IsNotCurrentlyTransferring
  deriving DecidableEq, Repr

/-- `TokenFactory` account (lib.rs, `#[account] pub struct TokenFactory`). -/
structure TokenFactory where
  authority : Pubkey
  token_count : Nat
  deriving DecidableEq, Repr

/-- `TokenData` account (lib.rs, `#[account] pub struct TokenData`). -/
structure TokenData where
  mint : Pubkey
  authority : Pubkey
  total_supply : Nat
  decimals : Nat
  is_paused : Bool
  is_minting_paused : Bool
  name : String
  symbol : String
  uri : String
  whitelist : Pubkey
  deriving DecidableEq, Repr

/-- `Whitelist` account: `addresses: Vec<Pubkey>`. -/
structure Whitelist where
  addresses : List Pubkey
  deriving DecidableEq, Repr

/-- Arguments of the `create_token` instruction (note: there is no
`decimals` argument in the source). -/
structure CreateTokenArgs where
  total_supply : Nat
  name : String
  symbol : String
  uri : String
  default_address : Pubkey
  deriving DecidableEq, Repr

/-- Result of a successful `create_token`: updated factory, the new
`TokenData` and the new `Whitelist`. -/
structure CreateTokenResult where
  factory : TokenFactory
  token_data : TokenData
  whitelist : Whitelist
  deriving DecidableEq, Repr

/-- `create_token` (lib.rs lines 47-171).  `mintAddr` / `whitelistAddr`
are the addresses of the freshly initialised accounts.  The
`factory.token_count.checked_add(1).unwrap()` panic and any CPI failure
abort the transaction; both are modelled as `Except.error`. -/
def create_token (factory : TokenFactory) (mintAddr whitelistAddr : Pubkey)
    (args : CreateTokenArgs) : Except ErrorCode CreateTokenResult :=
  if ¬ args.name.length ≤ 32 then .error .NameTooLong
  else if ¬ args.symbol.length ≤ 10 then .error .SymbolTooLong
  else if ¬ args.uri.length ≤ 200 then .error .UriTooLong
  else if ¬ args.total_supply > 0 then .error .InvalidAmount
  else
    match checkedAdd factory.token_count 1 with
    | none => .error .InvalidAmount
    | some c =>
      -- raw_supply = total_supply.checked_mul(10^token_data.decimals);
      -- token_data.decimals is the 9 stored just above.
      match checkedMul args.total_supply (pow10u64 9) with
      | none => .error .InvalidAmount
      | some _raw =>
        .ok { factory := { factory with token_count := c }
              token_data :=
                { mint := mintAddr
                  authority := factory.authority
                  total_supply := args.total_supply
                  decimals := 9
                  is_paused := false
                  is_minting_paused := false
                  name := args.name
                  symbol := args.symbol
                  uri := args.uri
                  whitelist := whitelistAddr }
              whitelist := { addresses := [args.default_address] } }

/-- One iteration of `add_to_whitelist`'s loop:
`if !whitelist.addresses.contains(addr) { whitelist.addresses.push(addr) }`. -/
def pushNew (acc : List Pubkey) (addr : Pubkey) : List Pubkey :=
  if acc.contains addr then acc else acc ++ [addr]

/-- One iteration of `remove_from_whitelist`'s loop:
`whitelist.addresses.retain(|&x| x != addr)`. -/
def retainNe (acc : List Pubkey) (addr : Pubkey) : List Pubkey :=
  acc.filter (fun x => x ≠ addr)

/-- `add_to_whitelist` (lib.rs lines 173-188). -/
def add_to_whitelist (wl : Whitelist) (addresses : List Pubkey) :
    Except ErrorCode Whitelist :=
  if addresses.isEmpty then .error .InvalidAmount
  else .ok { addresses := addresses.foldl pushNew wl.addresses }

/-- `remove_from_whitelist` (lib.rs lines 190-200). -/
def remove_from_whitelist (wl : Whitelist) (addresses : List Pubkey) :
    Except ErrorCode Whitelist :=
  .ok { addresses := addresses.foldl retainNe wl.addresses }

/-- `mint_tokens` (lib.rs lines 213-255). -/
def mint_tokens (td : TokenData) (amount : Nat) : Except ErrorCode TokenData :=
  if td.is_minting_paused then .error .MintingPaused
  else if ¬ amount > 0 then .error .InvalidAmount
  else
    match checkedMul amount (pow10u64 td.decimals) with
    | none => .error .InvalidAmount
    | some _raw =>
      match checkedAdd td.total_supply amount with
      | none => .error .InvalidAmount
      | some s => .ok { td with total_supply := s }

/-- `burn_tokens` (lib.rs lines 257-286). -/
def burn_tokens (td : TokenData) (amount : Nat) : Except ErrorCode TokenData :=
  if ¬ amount > 0 then .error .InvalidAmount
  else
    match checkedMul amount (pow10u64 td.decimals) with
    | none => .error .InvalidAmount
    | some _raw =>
      match checkedSub td.total_supply amount with
      | none => .error .InvalidAmount
      | some s => .ok { td with total_supply := s }

/-- `pause_minting` (lib.rs lines 288-295): toggles the flag. -/
def pause_minting (td : TokenData) : Except ErrorCode TokenData :=
  .ok { td with is_minting_paused := !td.is_minting_paused }

/-- `pause_token` (lib.rs lines 297-301): toggles the flag. -/
def pause_token (td : TokenData) : Except ErrorCode TokenData :=
  .ok { td with is_paused := !td.is_paused }

/-- `transfer_authority` (lib.rs lines 303-316). -/
def transfer_authority (td : TokenData) (new_authority : Pubkey) :
    Except ErrorCode TokenData :=
  .ok { td with authority := new_authority }

/-! ### Transfer hook -/

/-- On-chain context visible around a `transfer_hook` invocation:
the source account's `TransferHookAccount.transferring` extension flag,
the destination token account's `owner`, the resolved `Whitelist`
account, and the asset's `TokenData` (which the instruction does not
even receive as an account). -/
structure TransferHookCtx where
  sourceTransferring : Bool
  destinationOwner : Pubkey
  whitelist : Whitelist
  token_data : TokenData
  deriving DecidableEq, Repr

/-- `check_is_transferring` (lib.rs lines 740-752). -/
def check_is_transferring (sourceTransferring : Bool) : Except ErrorCode Unit :=
  if ¬ sourceTransferring then .error .IsNotCurrentlyTransferring
  else .ok ()

/-- `transfer_hook` (lib.rs lines 321-340). -/
def transfer_hook (ctx : TransferHookCtx) : Except ErrorCode Unit :=
  match check_is_transferring ctx.sourceTransferring with
  | .error e => .error e
  | .ok _ =>
    if ¬ ctx.whitelist.addresses.contains ctx.destinationOwner then
      .error .AddressNotWhitelisted
    else .ok ()

/-! ### Program-derived addresses and Anchor account validation

Anchor's `seeds = [...]`/`bump` constraint requires an account to sit at
the program-derived address computed from the given seed tuple; PDA
derivation is injective on seed tuples (ignoring the negligible hash
collisions), so a PDA is modelled structurally by its seeds. -/

/-- The PDAs this program derives with string tags. -/
inductive Pda where
  | factory (authority : Pubkey)
  | tokenData (authority : Pubkey) (token_count : Nat)
  | whitelistPda (authority : Pubkey) (token_count : Nat)
  | mintAuthority (authority : Pubkey)
  | extraAccountMetas (mint : Pubkey)
  deriving DecidableEq, BEq, Repr

/-- Account validation shared by `AddToWhitelistCTX`, `RemoveFromWhitelistCTX`,
`MintTokensCTX`, `BurnTokensCTX`, `PauseMintingCTX`, `PauseTokenCTX` and
`TransferAuthorityCTX` (lib.rs lines 467-627): the `token_data` account must
sit at the PDA derived from seeds `[b"token", authority.key(), &token_count.to_le_bytes()]`
where `authority` is the transaction's signer, and `has_one = authority`
requires `token_data.authority == authority`. -/
def authorityGatedAccess (signer : Pubkey) (token_count : Nat)
    (tokenDataAddr : Pda) (td : TokenData) : Bool :=
  (tokenDataAddr == Pda.tokenData signer token_count) && (td.authority == signer)

/-! ### Extra-account resolution (transfer hook)

Byte-level model of the seeds.  A pubkey is encoded as its 32 bytes (the
`Nat` model key is laid out little-endian); `u64` counters as 8 LE bytes,
matching `to_le_bytes`. -/

/-- `w`-byte little-endian encoding. -/
def leBytes : Nat → Nat → List Nat
  | 0, _ => []
  | w + 1, n => (n % 256) :: leBytes w (n / 256)

/-- The 32 bytes of a pubkey. -/
def pubkeyBytes (k : Pubkey) : List Nat := leBytes 32 k

/-- The bytes of `b"whitelist"`. -/
def whitelistTag : List Nat := (String.toList "whitelist").map Char.toNat

/-- Seeds with which `CreateTokenCTX` initialises the `whitelist` account
(lib.rs line 412): `[b"whitelist", authority.key().as_ref(), &factory.token_count.to_le_bytes()]`. -/
def creationWhitelistSeeds (authority : Pubkey) (token_count : Nat) :
    List (List Nat) :=
  [whitelistTag, pubkeyBytes authority, leBytes 8 token_count]

/-- The `spl_tlv_account_resolution::seeds::Seed` variants the program uses. -/
inductive Seed where
  | literal (bytes : List Nat)
  | accountKey (index : Nat)
  | accountData (account_index data_index length : Nat)
  deriving DecidableEq, Repr

/-- The seed recipe published by
`InitializeExtraAccountMetaList::extra_account_metas` (lib.rs lines
663-688).  The `_authority` and `_token_count` parameters are unused by
the source, mirrored here verbatim. -/
def extra_account_metas (_authority : Pubkey) (_token_count : Nat) : List Seed :=
  [ .literal whitelistTag, .accountKey 0, .accountData 0 0 8 ]

/-- An account as seen by the transfer-hook runtime when it resolves the
published seed recipe: its pubkey and raw data bytes. -/
structure ResolvedAccount where
  pubkey : Pubkey
  data : List Nat
  deriving DecidableEq, Repr

/-- Seed resolution performed by the transfer-hook runtime against the
Execute instruction's account list.  For `ExecuteInstruction` that list is:
index 0 = source token account, 1 = mint, 2 = destination token account,
3 = owner, 4 = extra-account-meta list (the `TransferHook` accounts
struct, lib.rs lines 690-709). -/
def resolveSeed (accounts : List ResolvedAccount) : Seed → Option (List Nat)
  | .literal b => some b
  | .accountKey i => (accounts.get? i).map (fun a => pubkeyBytes a.pubkey)
  | .accountData ai di len =>
      (accounts.get? ai).map (fun a => (a.data.drop di).take len)

/-- Resolve a whole seed recipe. -/
def resolveSeeds (accounts : List ResolvedAccount) (seeds : List Seed) :
    Option (List (List Nat)) :=
  seeds.mapM (resolveSeed accounts)

/-- SPL token-account data layout prefix: mint (32 bytes), then owner
(32 bytes), then amount (8 bytes LE). -/
def tokenAccountBytes (mint owner : Pubkey) (amount : Nat) : List Nat :=
  pubkeyBytes mint ++ pubkeyBytes owner ++ leBytes 8 amount

/-! ### Sequences of authority operations on one `TokenData` -/

/-- The supply/pause/authority instructions acting on a `TokenData`. -/
inductive TokenOp where
  | mint (amount : Nat)
  | burn (amount : Nat)
  | pauseMinting
  | pauseToken
  | transferAuth (new_authority : Pubkey)
  deriving DecidableEq, Repr

/-- Apply one instruction. -/
def applyOp (td : TokenData) : TokenOp → Except ErrorCode TokenData
  | .mint a => mint_tokens td a
  | .burn a => burn_tokens td a
  | .pauseMinting => pause_minting td
  | .pauseToken => pause_token td
  | .transferAuth k => transfer_authority td k

/-- Run a sequence in which every instruction must succeed. -/
def applyOps (td : TokenData) : List TokenOp → Except ErrorCode TokenData
  | [] => .ok td
  | op :: ops =>
    match applyOp td op with
    | .error e => .error e
    | .ok td' => applyOps td' ops

/-- Total human-unit amount minted by a sequence. -/
def mintSum : List TokenOp → Nat
  | [] => 0
  | .mint a :: ops => a + mintSum ops
  | _ :: ops => mintSum ops

/-- Total human-unit amount burned by a sequence. -/
def burnSum : List TokenOp → Nat
  | [] => 0
  | .burn a :: ops => a + burnSum ops
  | _ :: ops => burnSum ops

/-! ### Sequences of whitelist operations -/

/-- The whitelist-mutating instructions. -/
inductive WlOp where
  | add (addresses : List Pubkey)
  | remove (addresses : List Pubkey)
  deriving DecidableEq, Repr

/-- State of the whitelist account after one instruction; a failed
transaction leaves the account unchanged. -/
def applyWlOp (wl : Whitelist) : WlOp → Whitelist
  | .add l =>
    match add_to_whitelist wl l with
    | .ok wl' => wl'
    | .error _ => wl
  | .remove l =>
    match remove_from_whitelist wl l with
    | .ok wl' => wl'
    | .error _ => wl

/-- Apply a sequence of whitelist instructions. -/
def applyWlOps (wl : Whitelist) : List WlOp → Whitelist
  | [] => wl
  | op :: ops => applyWlOps (applyWlOp wl op) ops

/-! ### Concrete sample states (spec §8 scenario flavour) -/

/-- A factory freshly created for authority `0`. -/
def sampleFactory : TokenFactory := { authority := 0, token_count := 0 }

/-- Creation arguments of the spec's worked scenario ("Gold"/"GLD",
supply 1000, seed identity 2). -/
def sampleArgs : CreateTokenArgs :=
  { total_supply := 1000, name := "Gold", symbol := "GLD",
    uri := "https://x", default_address := 2 }

/-- The `TokenData` produced by `create_token sampleFactory 10 11 sampleArgs`. -/
def sampleTokenData : TokenData :=
  { mint := 10, authority := 0, total_supply := 1000, decimals := 9,
    is_paused := false, is_minting_paused := false,
    name := "Gold", symbol := "GLD", uri := "https://x", whitelist := 11 }

/-- Full result of `create_token sampleFactory 10 11 sampleArgs`. -/
def sampleCreateResult : CreateTokenResult :=
  { factory := { authority := 0, token_count := 1 },
    token_data := sampleTokenData,
    whitelist := { addresses := [2] } }

/-- `sampleTokenData` after `transfer_authority` to pubkey `1`. -/
def transferredTokenData : TokenData := { sampleTokenData with authority := 1 }

/-- `sampleTokenData` with minting paused. -/
def pausedTokenData : TokenData := { sampleTokenData with is_minting_paused := true }

/-- A transfer-hook invocation: marker set, destination owned by the
whitelisted identity `2`. -/
def sampleHookCtx : TransferHookCtx :=
  { sourceTransferring := true, destinationOwner := 2,
    whitelist := { addresses := [2] }, token_data := sampleTokenData }

/-- Same invocation but with both pause flags of the asset set. -/
def sampleHookCtxPaused : TransferHookCtx :=
  { sampleHookCtx with
      token_data := { sampleTokenData with is_paused := true, is_minting_paused := true } }

/-- Same invocation but the `transferring` marker is absent. -/
def sampleHookCtxIdle : TransferHookCtx :=
  { sampleHookCtx with sourceTransferring := false }

/-- Same invocation but the destination owner `3` is not whitelisted. -/
def sampleHookCtxStranger : TransferHookCtx :=
  { sampleHookCtx with destinationOwner := 3 }

/-- Execute-instruction account list of a concrete transfer of the sample
asset: source token account at pubkey `5` (mint `10`, owner `0`, balance
1000 raw), the mint at `10`, destination token account at pubkey `6`
(owner `2`), the owner account `0`, and the extra-account-meta list `7`. -/
def sampleExecuteAccounts : List ResolvedAccount :=
  [ { pubkey := 5, data := tokenAccountBytes 10 0 1000 },
    { pubkey := 10, data := [] },
    { pubkey := 6, data := tokenAccountBytes 10 2 0 },
    { pubkey := 0, data := [] },
    { pubkey := 7, data := [] } ]

/-- Minted sample: `sampleTokenData` after `mint_tokens _ 500`. -/
def mintedTokenData : TokenData := { sampleTokenData with total_supply := 1500 }

/-- Sample after `mint_tokens _ 500` then `burn_tokens _ 200`. -/
def mintBurnTokenData : TokenData := { sampleTokenData with total_supply := 1300 }

/-- A token whose recorded supply is at the `u64` ceiling. -/
def maxSupplyTokenData : TokenData := { sampleTokenData with total_supply := U64 - 1 }

/-! ## Helper lemmas -/

theorem checkedAdd_ok {a b s : Nat} (h : checkedAdd a b = some s) :
    s = a + b ∧ a + b < U64 := by
  unfold checkedAdd at h
  split at h <;> simp_all

theorem checkedSub_ok {a b s : Nat} (h : checkedSub a b = some s) :
    s = a - b ∧ b ≤ a := by
  unfold checkedSub at h
  split at h <;> simp_all

theorem checkedMul_ok {a b s : Nat} (h : checkedMul a b = some s) :
    s = a * b ∧ a * b < U64 := by
  unfold checkedMul at h
  split at h <;> simp_all

/-- Everything a successful `mint_tokens` guarantees. -/
theorem mint_tokens_ok {td t : TokenData} {a : Nat}
    (h : mint_tokens td a = .ok t) :
    t.total_supply = td.total_supply + a ∧ td.total_supply + a < U64 ∧
    td.is_minting_paused = false ∧ 0 < a ∧
    t.decimals = td.decimals ∧ t.authority = td.authority ∧
    t.is_minting_paused = td.is_minting_paused ∧ t.is_paused = td.is_paused := by
  unfold mint_tokens at h
  split at h
  · simp at h
  rename_i hpause
  split at h
  · simp at h
  rename_i hamt
  split at h
  · simp at h
  rename_i raw hmul
  split at h
  · simp at h
  rename_i s hadd
  obtain ⟨h1, h2⟩ := checkedAdd_ok hadd
  cases h
  exact ⟨h1, h1 ▸ h2, by simpa using hpause, by omega, rfl, rfl, rfl, rfl⟩

/-- Everything a successful `burn_tokens` guarantees. -/
theorem burn_tokens_ok {td t : TokenData} {a : Nat}
    (h : burn_tokens td a = .ok t) :
    t.total_supply = td.total_supply - a ∧ a ≤ td.total_supply ∧ 0 < a ∧
    t.decimals = td.decimals ∧ t.authority = td.authority ∧
    t.is_minting_paused = td.is_minting_paused ∧ t.is_paused = td.is_paused := by
  unfold burn_tokens at h
  split at h
  · simp at h
  rename_i hamt
  split at h
  · simp at h
  rename_i raw hmul
  split at h
  · simp at h
  rename_i s hsub
  obtain ⟨h1, h2⟩ := checkedSub_ok hsub
  cases h
  exact ⟨h1, h2, by omega, rfl, rfl, rfl, rfl⟩

/-- Everything a successful `create_token` guarantees. -/
theorem create_token_ok {f : TokenFactory} {m w : Pubkey}
    {args : CreateTokenArgs} {r : CreateTokenResult}
    (h : create_token f m w args = .ok r) :
    r.token_data.authority = f.authority ∧
    r.factory.token_count = f.token_count + 1 ∧
    r.factory.authority = f.authority ∧
    r.token_data.total_supply = args.total_supply ∧
    r.token_data.decimals = 9 ∧
    r.token_data.is_paused = false ∧
    r.token_data.is_minting_paused = false ∧
    r.whitelist.addresses = [args.default_address] := by
  unfold create_token at h
  split at h
  · simp at h
  split at h
  · simp at h
  split at h
  · simp at h
  split at h
  · simp at h
  split at h
  · simp at h
  rename_i c hc
  split at h
  · simp at h
  rename_i raw hraw
  obtain ⟨h1, _⟩ := checkedAdd_ok hc
  cases h
  exact ⟨rfl, by simpa using h1, rfl, rfl, rfl, rfl, rfl, rfl⟩

/-- `pause_minting` touches only its flag. -/
theorem pause_minting_ok {td t : TokenData} (h : pause_minting td = .ok t) :
    t.total_supply = td.total_supply ∧ t.decimals = td.decimals := by
  unfold pause_minting at h
  cases h
  exact ⟨rfl, rfl⟩

/-- `pause_token` touches only its flag. -/
theorem pause_token_ok {td t : TokenData} (h : pause_token td = .ok t) :
    t.total_supply = td.total_supply ∧ t.decimals = td.decimals := by
  unfold pause_token at h
  cases h
  exact ⟨rfl, rfl⟩

/-- `transfer_authority` touches only the authority field. -/
theorem transfer_authority_ok {td t : TokenData} {k : Pubkey}
    (h : transfer_authority td k = .ok t) :
    t.authority = k ∧ t.total_supply = td.total_supply ∧
    t.decimals = td.decimals := by
  unfold transfer_authority at h
  cases h
  exact ⟨rfl, rfl, rfl⟩

/-- Supply accounting over any successful sequence of operations. -/
theorem applyOps_total_supply (ops : List TokenOp) :
    ∀ td td' : TokenData, applyOps td ops = .ok td' →
    (td'.total_supply : Int) =
      (td.total_supply : Int) + (mintSum ops : Int) - (burnSum ops : Int) := by
  induction ops with
  | nil =>
    intro td td' h
    simp only [applyOps] at h
    cases h
    simp [mintSum, burnSum]
  | cons op ops ih =>
    intro td td' h
    simp only [applyOps] at h
    split at h
    · simp at h
    rename_i t1 hop
    have h2 := ih t1 td' h
    cases op with
    | mint a =>
      simp only [applyOp] at hop
      obtain ⟨e1, e2, -⟩ := mint_tokens_ok hop
      simp only [mintSum, burnSum] at *
      omega
    | burn a =>
      simp only [applyOp] at hop
      obtain ⟨e1, e2, -⟩ := burn_tokens_ok hop
      simp only [mintSum, burnSum] at *
      omega
    | pauseMinting =>
      simp only [applyOp] at hop
      obtain ⟨e1, -⟩ := pause_minting_ok hop
      simp only [mintSum, burnSum] at *
      omega
    | pauseToken =>
      simp only [applyOp] at hop
      obtain ⟨e1, -⟩ := pause_token_ok hop
      simp only [mintSum, burnSum] at *
      omega
    | transferAuth k =>
      simp only [applyOp] at hop
      obtain ⟨-, e1, -⟩ := transfer_authority_ok hop
      simp only [mintSum, burnSum] at *
      omega

/-- No operation changes `decimals`. -/
theorem applyOps_decimals (ops : List TokenOp) :
    ∀ td td' : TokenData, applyOps td ops = .ok td' →
    td'.decimals = td.decimals := by
  induction ops with
  | nil =>
    intro td td' h
    simp only [applyOps] at h
    cases h
    rfl
  | cons op ops ih =>
    intro td td' h
    simp only [applyOps] at h
    split at h
    · simp at h
    rename_i t1 hop
    have h2 := ih t1 td' h
    cases op with
    | mint a =>
      simp only [applyOp] at hop
      exact h2.trans (mint_tokens_ok hop).2.2.2.2.1
    | burn a =>
      simp only [applyOp] at hop
      exact h2.trans (burn_tokens_ok hop).2.2.2.1
    | pauseMinting =>
      simp only [applyOp] at hop
      exact h2.trans (pause_minting_ok hop).2
    | pauseToken =>
      simp only [applyOp] at hop
      exact h2.trans (pause_token_ok hop).2
    | transferAuth k =>
      simp only [applyOp] at hop
      exact h2.trans (transfer_authority_ok hop).2.2

/-- A mint whose supply update would overflow `u64` fails with
`InvalidAmount` (given the earlier guards pass). -/
theorem mint_tokens_add_overflow {td : TokenData} {a : Nat}
    (hp : td.is_minting_paused = false) (ha : 0 < a)
    (hmul : a * pow10u64 td.decimals < U64)
    (hadd : U64 ≤ td.total_supply + a) :
    mint_tokens td a = .error .InvalidAmount := by
  unfold mint_tokens checkedMul checkedAdd
  rw [hp]
  simp only [Bool.false_eq_true, if_false]
  rw [if_neg (by omega), if_pos hmul, if_neg (by omega)]

/-- A burn that would drive the supply below zero fails with
`InvalidAmount` (given the earlier guards pass). -/
theorem burn_tokens_underflow {td : TokenData} {a : Nat}
    (ha : 0 < a) (hmul : a * pow10u64 td.decimals < U64)
    (hsub : td.total_supply < a) :
    burn_tokens td a = .error .InvalidAmount := by
  unfold burn_tokens checkedMul checkedSub
  rw [if_neg (by omega), if_pos hmul, if_neg (by omega)]

/-! ### Whitelist list lemmas -/

theorem pushNew_contains_self (acc : List Pubkey) (a : Pubkey) :
    a ∈ pushNew acc a := by
  unfold pushNew
  split
  · rename_i hc
    exact List.elem_iff.mp hc
  · simp

theorem mem_pushNew {acc : List Pubkey} {a x : Pubkey} :
    x ∈ pushNew acc a ↔ x ∈ acc ∨ x = a := by
  unfold pushNew
  split
  · rename_i hc
    constructor
    · exact .inl
    · rintro (hx | rfl)
      · exact hx
      · exact List.elem_iff.mp hc
  · simp

theorem pushNew_nodup {acc : List Pubkey} (a : Pubkey) (h : acc.Nodup) :
    (pushNew acc a).Nodup := by
  unfold pushNew
  split
  · exact h
  · rename_i hc
    have : a ∉ acc := fun hm => hc (List.elem_iff.mpr hm)
    simp [List.nodup_append, h, this]

theorem foldl_pushNew_nodup (l : List Pubkey) :
    ∀ acc : List Pubkey, acc.Nodup → (l.foldl pushNew acc).Nodup := by
  induction l with
  | nil => intro acc h; exact h
  | cons a l ih =>
    intro acc h
    exact ih (pushNew acc a) (pushNew_nodup a h)

theorem foldl_retainNe_nodup (l : List Pubkey) :
    ∀ acc : List Pubkey, acc.Nodup → (l.foldl retainNe acc).Nodup := by
  induction l with
  | nil => intro acc h; exact h
  | cons a l ih =>
    intro acc h
    exact ih (retainNe acc a) (h.filter _)

/-- After one `add` the whitelist is unchanged or extended; its state is
duplicate-free whenever the previous state was. -/
theorem applyWlOp_nodup {wl : Whitelist} (op : WlOp)
    (h : wl.addresses.Nodup) : (applyWlOp wl op).addresses.Nodup := by
  cases op with
  | add l =>
    simp only [applyWlOp, add_to_whitelist]
    split
    · rename_i wl' heq
      split at heq
      · simp at heq
      · cases heq
        exact foldl_pushNew_nodup l wl.addresses h
    · exact h
  | remove l =>
    simp only [applyWlOp, remove_from_whitelist]
    exact foldl_retainNe_nodup l wl.addresses h

theorem applyWlOps_nodup (ops : List WlOp) :
    ∀ wl : Whitelist, wl.addresses.Nodup →
    (applyWlOps wl ops).addresses.Nodup := by
  induction ops with
  | nil => intro wl h; exact h
  | cons op ops ih =>
    intro wl h
    exact ih _ (applyWlOp_nodup op h)

/-! ## Claim theorems -/

/-- C1: every `transfer_hook` invocation fails with
`IsNotCurrentlyTransferring` when the source account's `transferring`
marker is unset (before any policy check); otherwise it fails with
`AddressNotWhitelisted` when the destination owner is not in the asset's
whitelist, and succeeds otherwise. -/
theorem transfer_hook_policy (ctx : TransferHookCtx) :
    (ctx.sourceTransferring = false →
      transfer_hook ctx = .error .IsNotCurrentlyTransferring) ∧
    (ctx.sourceTransferring = true →
      ctx.whitelist.addresses.contains ctx.destinationOwner = false →
      transfer_hook ctx = .error .AddressNotWhitelisted) ∧
    (ctx.sourceTransferring = true →
      ctx.whitelist.addresses.contains ctx.destinationOwner = true →
      transfer_hook ctx = .ok ()) := by
  refine ⟨fun h1 => ?_, fun h1 h2 => ?_, fun h1 h2 => ?_⟩
  · simp [transfer_hook, check_is_transferring, h1]
  · have h2' : ctx.destinationOwner ∉ ctx.whitelist.addresses := by simpa using h2
    simp [transfer_hook, check_is_transferring, h1, h2']
  · have h2' : ctx.destinationOwner ∈ ctx.whitelist.addresses := by simpa using h2
    simp [transfer_hook, check_is_transferring, h1, h2']

/-- Witness for C1: the three outcomes at concrete invocations. -/
theorem transfer_hook_policy_witness :
    transfer_hook sampleHookCtxIdle = .error .IsNotCurrentlyTransferring ∧
    transfer_hook sampleHookCtxStranger = .error .AddressNotWhitelisted ∧
    transfer_hook sampleHookCtx = .ok () :=
  ⟨(transfer_hook_policy sampleHookCtxIdle).1 rfl,
   (transfer_hook_policy sampleHookCtxStranger).2.1 rfl (by decide),
   (transfer_hook_policy sampleHookCtx).2.2 rfl (by decide)⟩

/-- C6: the transfer hook's outcome does not depend on the asset's pause
flags (indeed not on `TokenData` at all); in particular a transfer to a
whitelisted destination succeeds while minting is paused. -/
theorem transfer_hook_pause_independent :
    (∀ c1 c2 : TransferHookCtx,
      c1.sourceTransferring = c2.sourceTransferring →
      c1.destinationOwner = c2.destinationOwner →
      c1.whitelist = c2.whitelist →
      transfer_hook c1 = transfer_hook c2) ∧
    (∀ c : TransferHookCtx,
      c.sourceTransferring = true →
      c.token_data.is_minting_paused = true →
      c.whitelist.addresses.contains c.destinationOwner = true →
      transfer_hook c = .ok ()) := by
  constructor
  · intro c1 c2 h1 h2 h3
    simp [transfer_hook, check_is_transferring, h1, h2, h3]
  · intro c h1 h2 h3
    have h3' : c.destinationOwner ∈ c.whitelist.addresses := by simpa using h3
    simp [transfer_hook, check_is_transferring, h1, h3']

/-- Witness for C6: same outcome with both pause flags flipped, and a
concrete success under `is_minting_paused = true`. -/
theorem transfer_hook_pause_independent_witness :
    transfer_hook sampleHookCtx = transfer_hook sampleHookCtxPaused ∧
    transfer_hook sampleHookCtxPaused = .ok () :=
  ⟨transfer_hook_pause_independent.1 sampleHookCtx sampleHookCtxPaused rfl rfl rfl,
   transfer_hook_pause_independent.2 sampleHookCtxPaused rfl rfl (by decide)⟩

/-- C8: `mint_tokens` fails `MintingPaused` whenever the pause flag is set
(before any other validation), fails `InvalidAmount` on a zero amount, on
scaling overflow, and on supply-counter overflow, and on success adds
exactly the human-unit amount to `total_supply` within `u64` bounds. -/
theorem mint_tokens_checks (td : TokenData) (a : Nat) :
    (td.is_minting_paused = true → mint_tokens td a = .error .MintingPaused) ∧
    (td.is_minting_paused = false → a = 0 →
      mint_tokens td a = .error .InvalidAmount) ∧
    (td.is_minting_paused = false → 0 < a → U64 ≤ a * pow10u64 td.decimals →
      mint_tokens td a = .error .InvalidAmount) ∧
    (td.is_minting_paused = false → 0 < a → a * pow10u64 td.decimals < U64 →
      U64 ≤ td.total_supply + a → mint_tokens td a = .error .InvalidAmount) ∧
    (∀ t, mint_tokens td a = .ok t →
      t.total_supply = td.total_supply + a ∧ td.total_supply + a < U64) := by
  refine ⟨fun h1 => ?_, fun h1 h2 => ?_, fun h1 h2 h3 => ?_,
          fun h1 h2 h3 h4 => mint_tokens_add_overflow h1 h2 h3 h4,
          fun t ht => ⟨(mint_tokens_ok ht).1, (mint_tokens_ok ht).2.1⟩⟩
  · simp [mint_tokens, h1]
  · subst h2; simp [mint_tokens, h1]
  · unfold mint_tokens checkedMul
    rw [h1]
    simp only [Bool.false_eq_true, if_false]
    rw [if_neg (not_not.mpr h2), if_neg (by omega)]

/-- Witness for C8: each branch at a concrete input. -/
theorem mint_tokens_checks_witness :
    mint_tokens pausedTokenData 0 = .error .MintingPaused ∧
    mint_tokens sampleTokenData 0 = .error .InvalidAmount ∧
    mint_tokens sampleTokenData (2 ^ 60) = .error .InvalidAmount ∧
    mint_tokens maxSupplyTokenData 1 = .error .InvalidAmount ∧
    (mintedTokenData.total_supply = sampleTokenData.total_supply + 500 ∧
      sampleTokenData.total_supply + 500 < U64) :=
  ⟨(mint_tokens_checks pausedTokenData 0).1 rfl,
   (mint_tokens_checks sampleTokenData 0).2.1 rfl rfl,
   (mint_tokens_checks sampleTokenData (2 ^ 60)).2.2.1 rfl (by decide)
     (by decide),
   (mint_tokens_checks maxSupplyTokenData 1).2.2.2.1 rfl (by decide)
     (by decide) (by decide),
   (mint_tokens_checks sampleTokenData 500).2.2.2.2 mintedTokenData rfl⟩

/-- C10: an empty `add_to_whitelist` batch is rejected with
`InvalidAmount` and the whitelist account is left unchanged. -/
theorem add_to_whitelist_empty_batch (wl : Whitelist) :
    add_to_whitelist wl [] = .error .InvalidAmount ∧
    applyWlOp wl (.add []) = wl :=
  ⟨rfl, rfl⟩

/-- Adding `x` to a list already containing `x` is a no-op. -/
theorem pushNew_idem (acc : List Pubkey) (x : Pubkey) :
    pushNew (pushNew acc x) x = pushNew acc x := by
  have hx : (pushNew acc x).contains x = true :=
    List.elem_iff.mpr (pushNew_contains_self acc x)
  show (if (pushNew acc x).contains x then pushNew acc x
        else pushNew acc x ++ [x]) = pushNew acc x
  rw [if_pos hx]

/-- C3: starting from a created asset, after any successful sequence of
mint/burn (and pause/authority) operations the recorded supply equals the
initial supply plus minted minus burned amounts in human units; a mint
whose supply update would overflow `u64`, or a burn that would drive the
supply negative, fails with `InvalidAmount` instead of wrapping. -/
theorem supply_conservation :
    (∀ (f : TokenFactory) (m w : Pubkey) (args : CreateTokenArgs)
       (r : CreateTokenResult) (ops : List TokenOp) (td' : TokenData),
       create_token f m w args = .ok r → applyOps r.token_data ops = .ok td' →
       (td'.total_supply : Int) =
         (args.total_supply : Int) + (mintSum ops : Int) - (burnSum ops : Int)) ∧
    (∀ (td : TokenData) (a : Nat), td.is_minting_paused = false → 0 < a →
       a * pow10u64 td.decimals < U64 → U64 ≤ td.total_supply + a →
       mint_tokens td a = .error .InvalidAmount) ∧
    (∀ (td : TokenData) (a : Nat), 0 < a → a * pow10u64 td.decimals < U64 →
       td.total_supply < a → burn_tokens td a = .error .InvalidAmount) := by
  refine ⟨?_, fun td a h1 h2 h3 h4 => mint_tokens_add_overflow h1 h2 h3 h4,
          fun td a h1 h2 h3 => burn_tokens_underflow h1 h2 h3⟩
  intro f m w args r ops td' hc hops
  have h4 := (create_token_ok hc).2.2.2.1
  have := applyOps_total_supply ops r.token_data td' hops
  omega

/-- Witness for C3: scenario create 1000, mint 500, burn 200 → 1300; a
concrete overflowing mint and a concrete underflowing burn both fail. -/
theorem supply_conservation_witness :
    (mintBurnTokenData.total_supply : Int) =
      (sampleArgs.total_supply : Int) +
        (mintSum [.mint 500, .burn 200] : Int) -
        (burnSum [.mint 500, .burn 200] : Int) ∧
    mint_tokens maxSupplyTokenData 1 = .error .InvalidAmount ∧
    burn_tokens sampleTokenData 1001 = .error .InvalidAmount :=
  ⟨supply_conservation.1 sampleFactory 10 11 sampleArgs sampleCreateResult
     [.mint 500, .burn 200] mintBurnTokenData rfl rfl,
   supply_conservation.2.1 maxSupplyTokenData 1 rfl (by decide) (by decide)
     (by decide),
   supply_conservation.2.2 sampleTokenData 1001 (by decide) (by decide)
     (by decide)⟩

/-- C5: whitelist insertion is idempotent (`add(X)` twice equals `add(X)`
once) and, starting from any created asset's whitelist, the address list
stays duplicate-free under any sequence of add/remove operations. -/
theorem whitelist_idempotent_and_nodup :
    (∀ (wl : Whitelist) (x : Pubkey),
      applyWlOp (applyWlOp wl (.add [x])) (.add [x]) = applyWlOp wl (.add [x])) ∧
    (∀ (f : TokenFactory) (m w : Pubkey) (args : CreateTokenArgs)
       (r : CreateTokenResult) (ops : List WlOp),
      create_token f m w args = .ok r →
      (applyWlOps r.whitelist ops).addresses.Nodup) := by
  constructor
  · intro wl x
    have h1 : ∀ v : Whitelist, applyWlOp v (.add [x]) = ⟨pushNew v.addresses x⟩ :=
      fun v => rfl
    rw [h1, h1]
    exact congrArg Whitelist.mk (pushNew_idem wl.addresses x)
  · intro f m w args r ops h
    have h8 := (create_token_ok h).2.2.2.2.2.2.2
    refine applyWlOps_nodup ops r.whitelist ?_
    rw [h8]
    exact List.nodup_singleton _

/-- Witness for C5: concrete double-add equals single add, and a concrete
post-creation op sequence stays duplicate-free. -/
theorem whitelist_idempotent_and_nodup_witness :
    applyWlOp (applyWlOp ⟨[2]⟩ (.add [3])) (.add [3]) = applyWlOp ⟨[2]⟩ (.add [3]) ∧
    (applyWlOps sampleCreateResult.whitelist
      [.add [3, 2, 4], .remove [2], .add [3]]).addresses.Nodup :=
  ⟨whitelist_idempotent_and_nodup.1 ⟨[2]⟩ 3,
   whitelist_idempotent_and_nodup.2 sampleFactory 10 11 sampleArgs
     sampleCreateResult [.add [3, 2, 4], .remove [2], .add [3]] rfl⟩

/-- C9: a successful `create_token` by authority A records A as the
asset's controlling authority and bumps A's factory `token_count` by
exactly one. -/
theorem create_token_authority_and_count (f : TokenFactory) (m w : Pubkey)
    (args : CreateTokenArgs) (r : CreateTokenResult)
    (h : create_token f m w args = .ok r) :
    r.token_data.authority = f.authority ∧
    r.factory.authority = f.authority ∧
    r.factory.token_count = f.token_count + 1 := by
  obtain ⟨h1, h2, h3, -⟩ := create_token_ok h
  exact ⟨h1, h3, h2⟩

/-- Witness for C9 at the sample creation. -/
theorem create_token_authority_and_count_witness :
    sampleCreateResult.token_data.authority = sampleFactory.authority ∧
    sampleCreateResult.factory.authority = sampleFactory.authority ∧
    sampleCreateResult.factory.token_count = sampleFactory.token_count + 1 :=
  create_token_authority_and_count sampleFactory 10 11 sampleArgs
    sampleCreateResult rfl

/-- C7 counterexample: a caller following the spec's worked scenario
(which requests `decimals = 6`) receives an asset recorded with
`decimals = 9`; `create_token` has no decimals parameter at all, so the
requested value is never honoured. -/
theorem create_token_decimals_counterexample :
    (create_token sampleFactory 10 11 sampleArgs).map
      (fun r => r.token_data.decimals) = .ok 9 ∧ (9 : Nat) ≠ 6 :=
  ⟨rfl, by decide⟩

/-- C7 (amended): the recorded decimals of every created asset is the
constant 9, with no caller influence, and no operation ever changes it. -/
theorem decimals_constant_nine :
    (∀ (f : TokenFactory) (m w : Pubkey) (args : CreateTokenArgs)
       (r : CreateTokenResult), create_token f m w args = .ok r →
       r.token_data.decimals = 9) ∧
    (∀ (td td' : TokenData) (ops : List TokenOp),
       applyOps td ops = .ok td' → td'.decimals = td.decimals) := by
  constructor
  · intro f m w args r h
    exact (create_token_ok h).2.2.2.2.1
  · intro td td' ops h
    exact applyOps_decimals ops td td' h

/-- Witness for the amended C7. -/
theorem decimals_constant_nine_witness :
    sampleCreateResult.token_data.decimals = 9 ∧
    mintedTokenData.decimals = sampleTokenData.decimals :=
  ⟨decimals_constant_nine.1 sampleFactory 10 11 sampleArgs sampleCreateResult rfl,
   decimals_constant_nine.2 sampleTokenData mintedTokenData [.mint 500] rfl⟩

/-- C4: `transfer_authority` does record the new authority, but because
every authority-gated context derives the `token_data` PDA from the
transaction signer's key, neither the new authority (seeds mismatch) nor
the old one (`has_one` mismatch) passes account validation afterwards —
contradicting the spec's "takes effect immediately for all subsequent
authority-gated operations".  Evaluated at the failing input: asset
created by authority 0 (token_count 0), authority transferred to 1. -/
theorem transfer_authority_locks_out :
    authorityGatedAccess 0 0 (Pda.tokenData 0 0) sampleTokenData = true ∧
    transfer_authority sampleTokenData 1 = .ok transferredTokenData ∧
    transferredTokenData.authority = 1 ∧
    authorityGatedAccess 1 0 (Pda.tokenData 0 0) transferredTokenData = false ∧
    authorityGatedAccess 0 0 (Pda.tokenData 0 0) transferredTokenData = false :=
  ⟨rfl, rfl, rfl, rfl, rfl⟩

/-- C2: the published extra-account recipe resolves, at transfer time, to
seeds `["whitelist", source_token_account_key, source_token_data[0..8]]`
(account index 0 of the Execute instruction is the source token account,
whose data starts with the mint key) — not to the creation seeds
`["whitelist", authority, token_count]`.  Evaluated at the failing input
`sampleExecuteAccounts` for the asset created by authority 0 with
sequence number 0. -/
theorem extra_account_metas_wrong_seeds :
    resolveSeeds sampleExecuteAccounts (extra_account_metas 0 0) =
      some [whitelistTag, pubkeyBytes 5, (tokenAccountBytes 10 0 1000).take 8] ∧
    resolveSeeds sampleExecuteAccounts (extra_account_metas 0 0) ≠
      some (creationWhitelistSeeds 0 0) :=
  ⟨rfl, by decide⟩

end PotterPotter
